import Mathlib

/-!
Verification of the Cassandra query-planning core
(`query_benchmarker_cassandra/query.go`).

Times are modelled as `Int` nanoseconds since the epoch (Go `time.Time`
values enter the planner only through `UnixNano`, `Before`, `After` and
duration arithmetic, all of which are faithfully represented on `Int`).
Go byte slices and strings are modelled as `String`.

The types `TimeInterval`, `Series`, `ClientSideIndex` and the functions
`bucketTimeIntervals`, `NewQueryPlan` are declared in other files of the
repository that are not available; they are modelled from the
specification, as marked in their doc comments.  Everything else is a
direct translation of `query.go`.
-/

/-- A half-open time range [Start, End), in integer nanoseconds.
Modelled from the spec: a TimeInterval is an immutable value type with
derived equality over (start, end), usable as a map key. -/
structure TimeInterval where
  Start : Int
  End : Int
deriving DecidableEq, Repr

/-- Overlap of two half-open intervals: non-empty intersection.
Modelled from the spec: the series validity window must overlap the
given interval (non-empty intersection). -/
def TimeInterval.Overlap (a b : TimeInterval) : Bool :=
  max a.Start b.Start < min a.End b.End

/-- One bound argument of a low-level query (Go `interface` value:
either a string row identifier or an int64 nanosecond timestamp). -/
inductive CQLArg where
  | str (s : String)
  | int (n : Int)
deriving DecidableEq, Repr

/-- Type CQLQuery wraps data needed to execute a gocql.Query
(translated from `query.go`). -/
structure CQLQuery where
  PreparableQueryString : String
  Args : List CQLArg
deriving DecidableEq, Repr

/-- NewCQLQuery builds a CQLQuery, using prepared CQL statements
(translated from `query.go`). -/
def NewCQLQuery (aggrLabel tableName rowName : String)
    (timeStartNanos timeEndNanos : Int) : CQLQuery :=
  { PreparableQueryString :=
      "SELECT " ++ aggrLabel ++ "(value) FROM " ++ tableName ++
        " WHERE series_id = ? AND timestamp_ns >= ? AND timestamp_ns < ?"
  , Args := [CQLArg.str rowName, CQLArg.int timeStartNanos,
             CQLArg.int timeEndNanos] }

/-- A physical series known to the catalog.
Modelled from the spec: owning storage table name, opaque row/series
identifier, measurement name, field name, tag set, and the validity
window over which the series is known to contain data.  A tag is an
opaque string; the tag set is the collection of those strings. -/
structure Series where
  Table : String
  Id : String
  MeasurementName : String
  FieldName : String
  Tags : List String
  Interval : TimeInterval
deriving DecidableEq, Repr

/-- Modelled from the spec: exact equality against the series
measurement name. -/
def Series.MatchesMeasurementName (s : Series) (name : String) : Bool :=
  s.MeasurementName == name

/-- Modelled from the spec: exact equality against the series field
name. -/
def Series.MatchesFieldName (s : Series) (name : String) : Bool :=
  s.FieldName == name

/-- Modelled from the spec: the query tag filter is a list of
tag-groups; the series matches if there EXISTS at least one group such
that the series tag set satisfies ALL tag predicates in that group (OR
of ANDs); an empty tag filter (no groups) always matches.  A tag
predicate is satisfied when it occurs in the series tag set. -/
def Series.MatchesTagSets (s : Series) (tagSets : List (List String)) : Bool :=
  tagSets.isEmpty ||
    tagSets.any (fun group => group.all (fun t => s.Tags.contains t))

/-- Modelled from the spec: the series own validity window must overlap
the given interval (non-empty intersection); no overlap excludes the
series from that bucket only. -/
def Series.MatchesTimeInterval (s : Series) (ti : TimeInterval) : Bool :=
  s.Interval.Overlap ti

/-- The in-memory catalog of known series.
Modelled from the spec: an ownership container holding all known
Series, read-only during planning. -/
structure ClientSideIndex where
  seriesCollection : List Series
deriving DecidableEq, Repr

/-- Modelled from the spec: a snapshot operation returning an
independent copy of the series collection; copying is the identity in
this pure setting. -/
def ClientSideIndex.CopyOfSeriesCollection (csi : ClientSideIndex) : List Series :=
  csi.seriesCollection

/-- HLQuery is a high-level query (translated from `query.go`).
`TimeStart`/`TimeEnd` are nanosecond instants, `GroupByDuration` a
nanosecond duration. -/
structure HLQuery where
  HumanLabel : String
  HumanDescription : String
  ID : Int
  MeasurementName : String
  FieldName : String
  AggregationType : String
  TimeStart : Int
  TimeEnd : Int
  GroupByDuration : Int
  TagSets : List (List String)
deriving DecidableEq, Repr

/-- Number of buckets for a positive width: the count of indices k with
start + k * width < end, i.e. the ceiling of (end - start) / width. -/
def numBuckets (start endt width : Int) : Nat :=
  ((endt - start).toNat + (width.toNat - 1)) / width.toNat

/-- Modelled from the spec: the Time Bucketer.  Given start, end and a
bucket width, produce the ordered interval sequence: if the width is
zero the result is one interval equal to [start, end]; otherwise
interval k is [start + k * width, start + (k + 1) * width), continuing
until an interval start would reach or pass end. -/
def bucketTimeIntervals (start endt width : Int) : List TimeInterval :=
  if width = 0 then [⟨start, endt⟩]
  else
    (List.range (numBuckets start endt width)).map
      (fun (k : Nat) =>
        ⟨start + (k : Int) * width, start + ((k : Int) + 1) * width⟩)

/-- A query plan: the aggregation label and the mapping from time bucket
to the low-level queries of that bucket, represented as an association
list whose key order follows the bucket sequence (Go map iteration
order is unspecified; only the key set and the per-key lists are
meaningful). -/
structure QueryPlan where
  AggregationLabel : String
  CQLBuckets : List (TimeInterval × List CQLQuery)
deriving DecidableEq, Repr

/-- Modelled from the spec: plan-container construction; the spec names
no concrete failure condition beyond assembly, which is pure here, so
construction always succeeds (failures, were they detected, would be
reported through the `Except` error channel). -/
def NewQueryPlan (aggrLabel : String)
    (cqlBuckets : List (TimeInterval × List CQLQuery)) :
    Except String QueryPlan :=
  Except.ok ⟨aggrLabel, cqlBuckets⟩

/-- The bucket-independent filters of `ToQueryPlan`, in the order of the
three `continue` checks of the series loop. -/
def seriesMatchesQueryFilters (q : HLQuery) (s : Series) : Bool :=
  s.MatchesMeasurementName q.MeasurementName &&
    s.MatchesFieldName q.FieldName &&
    s.MatchesTagSets q.TagSets

/-- ToQueryPlan combines an HLQuery with a ClientSideIndex to make a
QueryPlan (translated from `query.go`).  The Go code iterates series
outermost and buckets innermost, appending each passing series to the
bucket entry; since appends into a bucket happen in catalog order, each
bucket list equals the catalog filtered by that bucket predicate, which
is how the map is computed here.  The clamping conditionals
(start.Before / end.After) are the max/min below. -/
def ToQueryPlan (q : HLQuery) (csi : ClientSideIndex) : Except String QueryPlan :=
  let seriesChoices := csi.CopyOfSeriesCollection
  let tis := bucketTimeIntervals q.TimeStart q.TimeEnd q.GroupByDuration
  let bucketedSeries : List (TimeInterval × List Series) :=
    tis.map (fun ti =>
      (ti, seriesChoices.filter (fun s =>
        seriesMatchesQueryFilters q s && s.MatchesTimeInterval ti)))
  let cqlBuckets : List (TimeInterval × List CQLQuery) :=
    bucketedSeries.map (fun p =>
      (p.1, p.2.map (fun ser =>
        NewCQLQuery q.AggregationType ser.Table ser.Id
          (max p.1.Start q.TimeStart) (min p.1.End q.TimeEnd))))
  NewQueryPlan q.AggregationType cqlBuckets

/-- Type CQLResult holds a result from a set of CQL aggregation queries
(translated from `query.go`). -/
structure CQLResult where
  Interval : TimeInterval
  Value : Float
deriving Repr

/-! ## Concrete sample values -/

/-- Sample query: avg of cpu/usage_user over [0, 120) grouped by 60. -/
def qW : HLQuery :=
  ⟨"lbl", "desc", 1, "cpu", "usage_user", "avg", 0, 120, 60, []⟩

/-- Sample series: cpu/usage_user, valid over [0, 200). -/
def serA : Series := ⟨"cpu", "A", "cpu", "usage_user", ["host=X"], ⟨0, 200⟩⟩

/-- Sample catalog holding only `serA`. -/
def csiW : ClientSideIndex := ⟨[serA]⟩

/-- Sample query matching nothing in `csiW` (different measurement). -/
def qN : HLQuery :=
  ⟨"lbl", "desc", 2, "mem", "usage_user", "avg", 0, 120, 60, []⟩

/-- The low-level query `ToQueryPlan` emits for `serA` in bucket [0, 60). -/
def cqW1 : CQLQuery :=
  ⟨"SELECT avg(value) FROM cpu WHERE series_id = ? AND timestamp_ns >= ? AND timestamp_ns < ?",
   [CQLArg.str "A", CQLArg.int 0, CQLArg.int 60]⟩

/-- The low-level query `ToQueryPlan` emits for `serA` in bucket [60, 120). -/
def cqW2 : CQLQuery :=
  ⟨"SELECT avg(value) FROM cpu WHERE series_id = ? AND timestamp_ns >= ? AND timestamp_ns < ?",
   [CQLArg.str "A", CQLArg.int 60, CQLArg.int 120]⟩

/-- First bucket entry of the sample plan. -/
def pW1 : TimeInterval × List CQLQuery := (⟨0, 60⟩, [cqW1])

/-- Second bucket entry of the sample plan. -/
def pW2 : TimeInterval × List CQLQuery := (⟨60, 120⟩, [cqW2])

/-- The plan `ToQueryPlan` computes for `qW` over `csiW`. -/
def qpW : QueryPlan := ⟨"avg", [pW1, pW2]⟩

/-! ## Helper lemmas -/

/-- The query list that `ToQueryPlan` computes for one bucket: the
catalog filtered by the four predicates, mapped to clamped low-level
queries. -/
def bucketQueries (q : HLQuery) (csi : ClientSideIndex) (ti : TimeInterval) :
    List CQLQuery :=
  (csi.CopyOfSeriesCollection.filter (fun s =>
      seriesMatchesQueryFilters q s && s.MatchesTimeInterval ti)).map
    (fun ser => NewCQLQuery q.AggregationType ser.Table ser.Id
      (max ti.Start q.TimeStart) (min ti.End q.TimeEnd))

/-- Closed form of `ToQueryPlan`: it always succeeds and returns one
entry per bucket, keyed in bucket order. -/
theorem toQueryPlan_ok (q : HLQuery) (csi : ClientSideIndex) :
    ToQueryPlan q csi = Except.ok
      { AggregationLabel := q.AggregationType
      , CQLBuckets :=
          (bucketTimeIntervals q.TimeStart q.TimeEnd q.GroupByDuration).map
            (fun ti => (ti, bucketQueries q csi ti)) } := by
  simp only [ToQueryPlan, NewQueryPlan, List.map_map]
  rfl

/-- Every entry of the bucket list produced by `ToQueryPlan` carries the
query list determined by its own key. -/
theorem mem_cqlBuckets_eq (q : HLQuery) (csi : ClientSideIndex)
    (p : TimeInterval × List CQLQuery)
    (hp : p ∈ (List.map (fun ti => (ti, bucketQueries q csi ti))
      (bucketTimeIntervals q.TimeStart q.TimeEnd q.GroupByDuration))) :
    p.2 = bucketQueries q csi p.1 := by
  obtain ⟨ti, _, rfl⟩ := List.mem_map.mp hp
  rfl

/-! ## Claim theorems -/

/-- Claim C8: `NewCQLQuery` never fails (it is a total function, pure
data assembly); its statement text is determined by the aggregation
label and the table name alone, and the row identifier and time bounds
appear only in the bound argument list, never in the statement text. -/
theorem newCQLQuery_assembly (aggrLabel tableName rowName : String)
    (timeStartNanos timeEndNanos : Int) :
    (NewCQLQuery aggrLabel tableName rowName timeStartNanos
        timeEndNanos).PreparableQueryString
      = "SELECT " ++ aggrLabel ++ "(value) FROM " ++ tableName ++
          " WHERE series_id = ? AND timestamp_ns >= ? AND timestamp_ns < ?"
    ∧ (NewCQLQuery aggrLabel tableName rowName timeStartNanos
        timeEndNanos).Args
      = [CQLArg.str rowName, CQLArg.int timeStartNanos,
         CQLArg.int timeEndNanos]
    ∧ ∀ (rowName2 : String) (s2 e2 : Int),
        (NewCQLQuery aggrLabel tableName rowName2 s2 e2).PreparableQueryString
          = (NewCQLQuery aggrLabel tableName rowName timeStartNanos
              timeEndNanos).PreparableQueryString :=
  ⟨rfl, rfl, fun _ _ _ => rfl⟩

/-- Claim C2: a series passes the tag-set test iff some group of the
filter has all its tag predicates satisfied by the series tag set (OR
of ANDs), and the empty filter always matches. -/
theorem matchesTagSets_or_of_ands (s : Series) (tagSets : List (List String)) :
    (s.MatchesTagSets tagSets = true ↔
      tagSets = [] ∨ ∃ group ∈ tagSets, ∀ t ∈ group, t ∈ s.Tags)
    ∧ s.MatchesTagSets [] = true := by
  refine ⟨?_, rfl⟩
  simp [Series.MatchesTagSets, List.isEmpty_iff, List.any_eq_true,
    List.all_eq_true, List.elem_iff]

/-- Claim C9: planning is deterministic; two runs on the same query and
snapshot yield the same bucket key sequence and, per bucket key,
multiset-equal query lists. -/
theorem toQueryPlan_deterministic (q : HLQuery) (csi : ClientSideIndex)
    (qp1 qp2 : QueryPlan)
    (h1 : ToQueryPlan q csi = Except.ok qp1)
    (h2 : ToQueryPlan q csi = Except.ok qp2) :
    qp1.CQLBuckets.map Prod.fst = qp2.CQLBuckets.map Prod.fst ∧
      ∀ p1 ∈ qp1.CQLBuckets, ∀ p2 ∈ qp2.CQLBuckets, p1.1 = p2.1 →
        Multiset.ofList p1.2 = Multiset.ofList p2.2 := by
  have e1 := Except.ok.inj ((toQueryPlan_ok q csi).symm.trans h1)
  have e2 := Except.ok.inj ((toQueryPlan_ok q csi).symm.trans h2)
  subst e1; subst e2
  refine ⟨rfl, ?_⟩
  intro p1 hp1 p2 hp2 hkey
  rw [mem_cqlBuckets_eq q csi p1 hp1, mem_cqlBuckets_eq q csi p2 hp2, hkey]

/-- Claim C3: for start ≤ end, planning succeeds and the plan key
sequence equals exactly the bucketer output; a bucket with no matching
series is still present, mapped to the empty query list. -/
theorem toQueryPlan_key_set (q : HLQuery) (csi : ClientSideIndex)
    (h : q.TimeStart ≤ q.TimeEnd) :
    ∃ qp, ToQueryPlan q csi = Except.ok qp
      ∧ qp.CQLBuckets.map Prod.fst
          = bucketTimeIntervals q.TimeStart q.TimeEnd q.GroupByDuration
      ∧ ∀ ti ∈ bucketTimeIntervals q.TimeStart q.TimeEnd q.GroupByDuration,
          (∀ s ∈ csi.CopyOfSeriesCollection,
              (seriesMatchesQueryFilters q s && s.MatchesTimeInterval ti)
                = false) →
            (ti, ([] : List CQLQuery)) ∈ qp.CQLBuckets := by
  refine ⟨_, toQueryPlan_ok q csi, ?_, ?_⟩
  · rw [List.map_map]
    have hid : (Prod.fst ∘ fun ti => (ti, bucketQueries q csi ti)) = id := rfl
    rw [hid, List.map_id]
  · intro ti hti hnone
    have hb : bucketQueries q csi ti = [] := by
      rw [bucketQueries, List.map_eq_nil_iff, List.filter_eq_nil_iff]
      intro s hs
      simp [hnone s hs]
    exact hb ▸ List.mem_map_of_mem (fun ti => (ti, bucketQueries q csi ti)) hti

/-- Claim C6: a query matching zero series is not an error: planning
succeeds, the key sequence is the full bucket set, and every bucket is
mapped to the empty query list. -/
theorem toQueryPlan_no_matches (q : HLQuery) (csi : ClientSideIndex)
    (h : ∀ s ∈ csi.CopyOfSeriesCollection,
      seriesMatchesQueryFilters q s = false) :
    ∃ qp, ToQueryPlan q csi = Except.ok qp
      ∧ qp.CQLBuckets.map Prod.fst
          = bucketTimeIntervals q.TimeStart q.TimeEnd q.GroupByDuration
      ∧ ∀ p ∈ qp.CQLBuckets, p.2 = [] := by
  refine ⟨_, toQueryPlan_ok q csi, ?_, ?_⟩
  · rw [List.map_map]
    have hid : (Prod.fst ∘ fun ti => (ti, bucketQueries q csi ti)) = id := rfl
    rw [hid, List.map_id]
  · intro p hp
    rw [mem_cqlBuckets_eq q csi p hp, bucketQueries, List.map_eq_nil_iff,
      List.filter_eq_nil_iff]
    intro s hs
    simp [h s hs]

/-- Claim C7: a series contributes a query to a given bucket iff it is
in the snapshot and passes all four predicate tests (measurement,
field, tag sets, and overlap with that bucket); each bucket list is
exactly the snapshot filtered by those four tests, so failing
measurement, field or tags excludes a series from every bucket, while
failing only the overlap test for one bucket excludes it from that
bucket alone. -/
theorem toQueryPlan_bucket_filter (q : HLQuery) (csi : ClientSideIndex)
    (qp : QueryPlan) (h : ToQueryPlan q csi = Except.ok qp) :
    ∀ ti qs, (ti, qs) ∈ qp.CQLBuckets →
      qs = (csi.CopyOfSeriesCollection.filter (fun s =>
          s.MatchesMeasurementName q.MeasurementName &&
          s.MatchesFieldName q.FieldName &&
          s.MatchesTagSets q.TagSets &&
          s.MatchesTimeInterval ti)).map
        (fun ser => NewCQLQuery q.AggregationType ser.Table ser.Id
          (max ti.Start q.TimeStart) (min ti.End q.TimeEnd)) := by
  have e := Except.ok.inj ((toQueryPlan_ok q csi).symm.trans h)
  subst e
  intro ti qs hm
  have hq : qs = bucketQueries q csi ti := mem_cqlBuckets_eq q csi (ti, qs) hm
  rw [hq, bucketQueries]
  congr 1

/-- Claim C1: every emitted low-level query of a bucket binds exactly
the row identifier of a snapshot series together with the clamped
bounds max(bucket start, query start) and min(bucket end, query end),
in nanoseconds. -/
theorem toQueryPlan_args_clamped (q : HLQuery) (csi : ClientSideIndex)
    (qp : QueryPlan) (h : ToQueryPlan q csi = Except.ok qp) :
    ∀ p ∈ qp.CQLBuckets, ∀ cq ∈ p.2,
      ∃ s, s ∈ csi.CopyOfSeriesCollection ∧
        cq = NewCQLQuery q.AggregationType s.Table s.Id
              (max p.1.Start q.TimeStart) (min p.1.End q.TimeEnd) ∧
        cq.Args = [CQLArg.str s.Id,
                   CQLArg.int (max p.1.Start q.TimeStart),
                   CQLArg.int (min p.1.End q.TimeEnd)] := by
  have e := Except.ok.inj ((toQueryPlan_ok q csi).symm.trans h)
  subst e
  intro p hp cq hcq
  rw [mem_cqlBuckets_eq q csi p hp, bucketQueries] at hcq
  obtain ⟨s, hs, rfl⟩ := List.mem_map.mp hcq
  exact ⟨s, (List.mem_filter.mp hs).1, rfl, rfl⟩

/-- Claim C10: every emitted low-level query applies a half-open time
bound: its statement text compares the timestamp with `>=` against the
second bound argument and with `<` against the third, so the start
argument is inclusive and the end argument exclusive. -/
theorem toQueryPlan_halfopen_bounds (q : HLQuery) (csi : ClientSideIndex)
    (qp : QueryPlan) (h : ToQueryPlan q csi = Except.ok qp) :
    ∀ p ∈ qp.CQLBuckets, ∀ cq ∈ p.2,
      ∃ (table rowName : String) (a b : Int),
        cq.Args = [CQLArg.str rowName, CQLArg.int a, CQLArg.int b] ∧
        cq.PreparableQueryString
          = "SELECT " ++ q.AggregationType ++ "(value) FROM " ++ table ++
              " WHERE series_id = ? AND timestamp_ns >= ? AND timestamp_ns < ?" := by
  have e := Except.ok.inj ((toQueryPlan_ok q csi).symm.trans h)
  subst e
  intro p hp cq hcq
  rw [mem_cqlBuckets_eq q csi p hp, bucketQueries] at hcq
  obtain ⟨s, _, rfl⟩ := List.mem_map.mp hcq
  exact ⟨s.Table, s.Id, _, _, rfl, rfl⟩

/-- Ceiling-division bound: an index is below the bucket count iff that
many full widths do not yet cover the distance. -/
theorem lt_ceilDiv_iff (d w k : Nat) (hw : 0 < w) :
    k < (d + (w - 1)) / w ↔ k * w < d := by
  have h1 : (d + (w - 1)) / w < k + 1 ↔ d + (w - 1) < (k + 1) * w :=
    Nat.div_lt_iff_lt_mul hw
  have h2 : (k + 1) * w = k * w + w := by ring
  omega

/-- Index characterization of `numBuckets` for a positive width. -/
theorem lt_numBuckets_iff (start endt width : Int) (hw : 0 < width)
    (k : Nat) :
    k < numBuckets start endt width ↔ (k : Int) * width < endt - start := by
  have hwn : 0 < width.toNat := by omega
  have h0 : (0 : Int) ≤ (k : Int) * width := by positivity
  unfold numBuckets
  rw [lt_ceilDiv_iff _ _ _ hwn, ← @Nat.cast_lt ℤ _ _ _]
  push_cast
  have hwc : ((width.toNat : Nat) : Int) = width := by omega
  rw [hwc]
  omega

/-- Claim C4: for start ≤ end and a positive width, bucket k is exactly
[start + k·width, start + (k+1)·width), buckets continue precisely
until a bucket start would reach or pass end, and the buckets, clamped
to [start, end], cover [start, end) exactly, ordered, with no gaps and
no overlaps. -/
theorem bucketTimeIntervals_coverage (start endt width : Int)
    (L : List TimeInterval) (hL : L = bucketTimeIntervals start endt width)
    (hse : start ≤ endt) (hw : 0 < width) :
    (∀ k (h : k < L.length),
        L.get ⟨k, h⟩
          = ⟨start + (k : Int) * width, start + ((k : Int) + 1) * width⟩)
    ∧ (∀ k (h : k < L.length), start + (k : Int) * width < endt)
    ∧ endt ≤ start + (L.length : Int) * width
    ∧ (∀ x : Int, (start ≤ x ∧ x < endt) ↔
        ∃ ti ∈ L, max ti.Start start ≤ x ∧ x < min ti.End endt)
    ∧ (∀ i j (hi : i < L.length) (hj : j < L.length), i < j →
        (L.get ⟨i, hi⟩).End ≤ (L.get ⟨j, hj⟩).Start)
    ∧ (∀ i (h : i + 1 < L.length),
        (L.get ⟨i, Nat.lt_of_succ_lt h⟩).End = (L.get ⟨i + 1, h⟩).Start) := by
  have hw0 : width ≠ 0 := ne_of_gt hw
  have hbdef : bucketTimeIntervals start endt width
      = (List.range (numBuckets start endt width)).map
          (fun k => ⟨start + (k : Int) * width,
                     start + ((k : Int) + 1) * width⟩) := by
    unfold bucketTimeIntervals
    rw [if_neg hw0]
  rw [hbdef] at hL
  subst hL
  have hlen : ((List.range (numBuckets start endt width)).map
      (fun k : Nat => (⟨start + (k : Int) * width,
        start + ((k : Int) + 1) * width⟩ : TimeInterval))).length
      = numBuckets start endt width := by simp
  have hget : ∀ k (h : k < ((List.range (numBuckets start endt width)).map
      (fun k : Nat => (⟨start + (k : Int) * width,
        start + ((k : Int) + 1) * width⟩ : TimeInterval))).length),
      ((List.range (numBuckets start endt width)).map
        (fun k : Nat => (⟨start + (k : Int) * width,
          start + ((k : Int) + 1) * width⟩ : TimeInterval))).get ⟨k, h⟩
        = ⟨start + (k : Int) * width, start + ((k : Int) + 1) * width⟩ := by
    intro k h
    simp [List.get_eq_getElem]
  refine ⟨hget, ?_, ?_, ?_, ?_, ?_⟩
  · intro k h
    rw [hlen] at h
    have := (lt_numBuckets_iff start endt width hw k).mp h
    omega
  · rw [hlen]
    by_contra hcon
    push_neg at hcon
    have : numBuckets start endt width < numBuckets start endt width :=
      (lt_numBuckets_iff start endt width hw _).mpr (by omega)
    exact absurd this (lt_irrefl _)
  · intro x
    constructor
    · rintro ⟨hx1, hx2⟩
      obtain ⟨d, hd⟩ : ∃ d : Nat, (d : Int) = x - start :=
        ⟨(x - start).toNat, by omega⟩
      obtain ⟨w, hwnc⟩ : ∃ w : Nat, (w : Int) = width :=
        ⟨width.toNat, by omega⟩
      have hwpos : 0 < w := by omega
      have h1 : d / w * w ≤ d := Nat.div_mul_le_self d w
      have h2 : d < d / w * w + w := by
        have hdm := Nat.div_add_mod d w
        have hmod := Nat.mod_lt d hwpos
        have hcomm : d / w * w = w * (d / w) := Nat.mul_comm _ _
        omega
      have h1i : ((d / w : Nat) : Int) * width ≤ x - start := by
        rw [← hwnc, ← hd]
        exact_mod_cast h1
      have h2i : x - start < ((d / w : Nat) : Int) * width + width := by
        rw [← hwnc, ← hd]
        exact_mod_cast h2
      have hklt : d / w < numBuckets start endt width := by
        rw [lt_numBuckets_iff start endt width hw]
        omega
      refine ⟨⟨start + ((d / w : Nat) : Int) * width,
        start + (((d / w : Nat) : Int) + 1) * width⟩, ?_, ?_, ?_⟩
      · exact List.mem_map_of_mem _ (List.mem_range.mpr hklt)
      · have hle : start + ((d / w : Nat) : Int) * width ≤ x := by omega
        exact max_le hle hx1
      · have hlt : x < start + (((d / w : Nat) : Int) + 1) * width := by
          have hx : x < start + ((d / w : Nat) : Int) * width + width := by
            omega
          calc x < start + ((d / w : Nat) : Int) * width + width := hx
            _ = start + (((d / w : Nat) : Int) + 1) * width := by ring
        exact lt_min hlt hx2
    · rintro ⟨ti, hti, hmax, hmin⟩
      exact ⟨le_trans (le_max_right _ _) hmax,
        lt_of_lt_of_le hmin (min_le_right _ _)⟩
  · intro i j hi hj hij
    rw [hget i hi, hget j hj]
    show start + ((i : Int) + 1) * width ≤ start + (j : Int) * width
    have hij' : (i : Int) + 1 ≤ (j : Int) := by exact_mod_cast hij
    have := mul_le_mul_of_nonneg_right hij' hw.le
    linarith
  · intro i h
    rw [hget i (Nat.lt_of_succ_lt h), hget (i + 1) h]
    show start + ((i : Int) + 1) * width = start + ((i + 1 : Nat) : Int) * width
    push_cast
    ring

/-- Claim C5 counterexample: with start = end = 5 and positive width
10, the bucketer produces no interval at all, not exactly one
degenerate interval as the claim states. -/
theorem bucketTimeIntervals_degenerate_cex :
    bucketTimeIntervals 5 5 10 = [] ∧
      ¬ (bucketTimeIntervals 5 5 10).length = 1 := by
  constructor
  · unfold bucketTimeIntervals numBuckets
    decide
  · unfold bucketTimeIntervals numBuckets
    decide

/-- Claim C5 (amended): if the width is zero the bucketer produces
exactly one interval equal to [start, end] — degenerate when
start = end; if start = end and the width is positive, it produces no
interval, because the very first bucket start already reaches end. -/
theorem bucketTimeIntervals_width_zero (start endt width : Int) :
    (width = 0 → bucketTimeIntervals start endt width = [⟨start, endt⟩])
    ∧ (start = endt → 0 < width →
        bucketTimeIntervals start endt width = []) := by
  constructor
  · intro h0
    unfold bucketTimeIntervals
    rw [if_pos h0]
  · intro heq hw
    unfold bucketTimeIntervals
    rw [if_neg (ne_of_gt hw)]
    have hn : numBuckets start endt width = 0 := by
      unfold numBuckets
      have hd : (endt - start).toNat = 0 := by omega
      rw [hd]
      exact Nat.div_eq_of_lt (by omega)
    rw [hn]
    rfl

/-- Witness for the amended claim C5 at width 0 over [5, 9] and at the
degenerate range [7, 7] with width 10. -/
theorem bucketTimeIntervals_width_zero_witness :
    bucketTimeIntervals 5 9 0 = [⟨5, 9⟩] ∧ bucketTimeIntervals 7 7 10 = [] :=
  ⟨(bucketTimeIntervals_width_zero 5 9 0).1 rfl,
   (bucketTimeIntervals_width_zero 7 7 10).2 rfl (by decide)⟩

/-! ## Witnesses -/

/-- Witness for claim C1 at the first bucket and query of the sample
plan. -/
theorem toQueryPlan_args_clamped_witness :
    ∃ s, s ∈ csiW.CopyOfSeriesCollection ∧
      cqW1 = NewCQLQuery qW.AggregationType s.Table s.Id
            (max pW1.1.Start qW.TimeStart) (min pW1.1.End qW.TimeEnd) ∧
      cqW1.Args = [CQLArg.str s.Id,
                   CQLArg.int (max pW1.1.Start qW.TimeStart),
                   CQLArg.int (min pW1.1.End qW.TimeEnd)] :=
  toQueryPlan_args_clamped qW csiW qpW rfl pW1 (by decide) cqW1 (by decide)

/-- Witness for claim C3 on the sample query and catalog. -/
theorem toQueryPlan_key_set_witness :
    ∃ qp, ToQueryPlan qW csiW = Except.ok qp
      ∧ qp.CQLBuckets.map Prod.fst
          = bucketTimeIntervals qW.TimeStart qW.TimeEnd qW.GroupByDuration
      ∧ ∀ ti ∈ bucketTimeIntervals qW.TimeStart qW.TimeEnd qW.GroupByDuration,
          (∀ s ∈ csiW.CopyOfSeriesCollection,
              (seriesMatchesQueryFilters qW s && s.MatchesTimeInterval ti)
                = false) →
            (ti, ([] : List CQLQuery)) ∈ qp.CQLBuckets :=
  toQueryPlan_key_set qW csiW (by decide)

/-- Witness for claim C6 on a query that matches no series. -/
theorem toQueryPlan_no_matches_witness :
    ∃ qp, ToQueryPlan qN csiW = Except.ok qp
      ∧ qp.CQLBuckets.map Prod.fst
          = bucketTimeIntervals qN.TimeStart qN.TimeEnd qN.GroupByDuration
      ∧ ∀ p ∈ qp.CQLBuckets, p.2 = [] :=
  toQueryPlan_no_matches qN csiW (by decide)

/-- Witness for claim C7 at bucket [0, 60) of the sample plan. -/
theorem toQueryPlan_bucket_filter_witness :
    [cqW1] = (csiW.CopyOfSeriesCollection.filter (fun s =>
        s.MatchesMeasurementName qW.MeasurementName &&
        s.MatchesFieldName qW.FieldName &&
        s.MatchesTagSets qW.TagSets &&
        s.MatchesTimeInterval ⟨0, 60⟩)).map
      (fun ser => NewCQLQuery qW.AggregationType ser.Table ser.Id
        (max (0 : Int) qW.TimeStart) (min (60 : Int) qW.TimeEnd)) :=
  toQueryPlan_bucket_filter qW csiW qpW rfl ⟨0, 60⟩ [cqW1] (by decide)

/-- Witness for claim C9 on the sample query and catalog. -/
theorem toQueryPlan_deterministic_witness :
    qpW.CQLBuckets.map Prod.fst = qpW.CQLBuckets.map Prod.fst ∧
      ∀ p1 ∈ qpW.CQLBuckets, ∀ p2 ∈ qpW.CQLBuckets, p1.1 = p2.1 →
        Multiset.ofList p1.2 = Multiset.ofList p2.2 :=
  toQueryPlan_deterministic qW csiW qpW qpW rfl rfl

/-- Witness for claim C10 at the first bucket and query of the sample
plan. -/
theorem toQueryPlan_halfopen_bounds_witness :
    ∃ (table rowName : String) (a b : Int),
      cqW1.Args = [CQLArg.str rowName, CQLArg.int a, CQLArg.int b] ∧
      cqW1.PreparableQueryString
        = "SELECT " ++ qW.AggregationType ++ "(value) FROM " ++ table ++
            " WHERE series_id = ? AND timestamp_ns >= ? AND timestamp_ns < ?" :=
  toQueryPlan_halfopen_bounds qW csiW qpW rfl pW1 (by decide) cqW1 (by decide)

/-- Witness for claim C4 at start 0, end 100, width 30: starts are
0, 30, 60, 90 and the clamped union is exactly [0, 100). -/
theorem bucketTimeIntervals_coverage_witness :
    (∀ k (h : k < (bucketTimeIntervals 0 100 30).length),
        (bucketTimeIntervals 0 100 30).get ⟨k, h⟩
          = ⟨0 + (k : Int) * 30, 0 + ((k : Int) + 1) * 30⟩)
    ∧ (∀ k (h : k < (bucketTimeIntervals 0 100 30).length),
        0 + (k : Int) * 30 < 100)
    ∧ (100 : Int) ≤ 0 + ((bucketTimeIntervals 0 100 30).length : Int) * 30
    ∧ (∀ x : Int, (0 ≤ x ∧ x < 100) ↔
        ∃ ti ∈ bucketTimeIntervals 0 100 30,
          max ti.Start 0 ≤ x ∧ x < min ti.End 100)
    ∧ (∀ i j (hi : i < (bucketTimeIntervals 0 100 30).length)
          (hj : j < (bucketTimeIntervals 0 100 30).length), i < j →
        ((bucketTimeIntervals 0 100 30).get ⟨i, hi⟩).End
          ≤ ((bucketTimeIntervals 0 100 30).get ⟨j, hj⟩).Start)
    ∧ (∀ i (h : i + 1 < (bucketTimeIntervals 0 100 30).length),
        ((bucketTimeIntervals 0 100 30).get ⟨i, Nat.lt_of_succ_lt h⟩).End
          = ((bucketTimeIntervals 0 100 30).get ⟨i + 1, h⟩).Start) :=
  bucketTimeIntervals_coverage 0 100 30 (bucketTimeIntervals 0 100 30) rfl
    (by decide) (by decide)
